import Mathlib

/-!
Shallow embedding of the stock-ledger subsystem of the printing-press app
(`app.py`): the `stock`, `stock_additions`, `order_items_used` and `orders`
tables, together with the mutating operations `upsert_stock`,
`add_item_usage`, the bulk per-order item-usage submission
(`worker_order_items` POST), `delete_stock`, the order-deletion cascade
(`owner_orders` `delete_order` action) and the order-status updates.
SQLite REAL columns are modelled as rationals; tables as lists of rows.
-/

namespace PrintingPress

/-- A row of the `stock` table. -/
structure StockRow where
  id : Nat
  item_name : String
  item_no : String
  quantity : ℚ
  unit_cost : ℚ
  total_amount : ℚ
  size : String
  last_updated : String
deriving DecidableEq

/-- A row of the `stock_additions` table. -/
structure StockAdditionRow where
  item_name : String
  item_no : String
  quantity : ℚ
  unit_cost : ℚ
  total_amount_added : ℚ
  date_added : String
deriving DecidableEq

/-- A row of the `order_items_used` table. -/
structure UsageRow where
  order_id : Nat
  stock_item_id : Nat
  quantity_used : ℚ
deriving DecidableEq

/-- A row of the `orders` table (the columns the embedded operations touch). -/
structure OrderRow where
  id : Nat
  product_name : String
  size : String
  colour : String
  quantity : ℚ
  total_cost : ℚ
  status : String
  receive_date : Option String
deriving DecidableEq

/-- The database state: the four tables plus the autoincrement counter for `stock.id`. -/
structure DB where
  stock : List StockRow
  stock_additions : List StockAdditionRow
  order_items_used : List UsageRow
  orders : List OrderRow
  next_stock_id : Nat
deriving DecidableEq

/-- Python's `str.strip()`: drop whitespace from both ends. -/
def pyStrip (s : String) : String :=
  ⟨((s.data.dropWhile Char.isWhitespace).reverse.dropWhile Char.isWhitespace).reverse⟩

/-- The lookup in `upsert_stock`: `SELECT * FROM stock WHERE item_no = ?` when the
stripped item number is non-empty, else
`SELECT * FROM stock WHERE item_name = ? AND IFNULL(size,'') = ?`; `fetchone`
returns the first matching row. -/
def lookupStock (db : DB) (item_name item_no size : String) : Option StockRow :=
  if item_no ≠ "" then
    db.stock.find? (fun r => r.item_no == item_no)
  else
    db.stock.find? (fun r => r.item_name == item_name && r.size == size)

/-- The found-branch arithmetic of `upsert_stock`: `new_qty = old_qty + add_qty`,
`new_unit = (old_qty*old_unit + add_cost) / new_qty if new_qty > 0 else 0.0`,
`new_total = new_qty * new_unit`. -/
def applyAddition (r : StockRow) (add_qty add_cost : ℚ) (today : String) : StockRow :=
  let new_qty := r.quantity + add_qty
  let new_unit := if new_qty > 0 then (r.quantity * r.unit_cost + add_cost) / new_qty else 0
  { r with quantity := new_qty, unit_cost := new_unit,
           total_amount := new_qty * new_unit, last_updated := today }

/-- The insert-branch of `upsert_stock`:
`unit_cost = add_cost / add_qty if add_qty > 0 else 0.0`,
`total_amount = add_qty * unit_cost`. -/
def newStockRow (id : Nat) (item_name item_no size : String)
    (add_qty add_cost : ℚ) (today : String) : StockRow :=
  let unit_cost := if add_qty > 0 then add_cost / add_qty else 0
  { id := id, item_name := item_name, item_no := item_no,
    quantity := add_qty, unit_cost := unit_cost,
    total_amount := add_qty * unit_cost, size := size, last_updated := today }

/-- The `stock_additions` row logged by every `upsert_stock` call:
per-event unit cost is `(add_cost / add_qty) if add_qty > 0 else 0.0`. -/
def additionLogRow (item_name item_no : String) (add_qty add_cost : ℚ)
    (today : String) : StockAdditionRow :=
  { item_name := item_name, item_no := item_no, quantity := add_qty,
    unit_cost := if add_qty > 0 then add_cost / add_qty else 0,
    total_amount_added := add_cost, date_added := today }

/-- The in-place UPDATE of the found-branch of `upsert_stock`: write the four
recomputed columns of `u` into the row `r` (`UPDATE stock SET quantity=?,
unit_cost=?, total_amount=?, last_updated=? WHERE id=?`). -/
def writeBack (u r : StockRow) : StockRow :=
  { r with quantity := u.quantity, unit_cost := u.unit_cost,
           total_amount := u.total_amount, last_updated := u.last_updated }

/-- `upsert_stock(conn, item_name, item_no, size, added_qty, addition_total_cost)`:
strip `item_no` and `size`, look the item up, update in place or insert, and
always append a `stock_additions` row. -/
def upsert_stock (db : DB) (item_name item_no size : String)
    (added_qty addition_total_cost : ℚ) (today : String) : DB :=
  let no := pyStrip item_no
  let sz := pyStrip size
  let db' :=
    match lookupStock db item_name no sz with
    | some row =>
        let u := applyAddition row added_qty addition_total_cost today
        { db with stock := db.stock.map (fun r : StockRow =>
            if r.id = row.id then writeBack u r else r) }
    | none =>
        { db with
            stock := db.stock ++
              [newStockRow db.next_stock_id item_name no sz added_qty addition_total_cost today],
            next_stock_id := db.next_stock_id + 1 }
  { db' with stock_additions :=
      db'.stock_additions ++ [additionLogRow item_name no added_qty addition_total_cost today] }

/-- `SELECT id, quantity, unit_cost FROM stock WHERE id=?` in `add_item_usage`. -/
def findStock (db : DB) (sid : Nat) : Option StockRow :=
  db.stock.find? (fun r => r.id == sid)

/-- The deduction UPDATE shared by `add_item_usage` and `worker_order_items`:
`SET quantity = quantity - ?, total_amount = (quantity - ?) * unit_cost,
last_updated = ?` (both right-hand sides read the old row values). -/
def deductRow (r : StockRow) (qty_used : ℚ) (today : String) : StockRow :=
  { r with quantity := r.quantity - qty_used,
           total_amount := (r.quantity - qty_used) * r.unit_cost,
           last_updated := today }

/-- `add_item_usage(conn, order_id, stock_id, qty_used)`: returns the error
message (and the untouched state) on failure, or `none` and the updated state
on success. -/
def add_item_usage (db : DB) (order_id stock_id : Nat) (qty_used : ℚ)
    (today : String) : Option String × DB :=
  if qty_used ≤ 0 then (some "Quantity must be > 0", db)
  else
    match findStock db stock_id with
    | none => (some "Stock item not found", db)
    | some s =>
        if s.quantity < qty_used then (some "Not enough stock", db)
        else
          (none,
           { db with
               stock := db.stock.map (fun r =>
                 if r.id = stock_id then deductRow r qty_used today else r),
               order_items_used := db.order_items_used ++ [⟨order_id, stock_id, qty_used⟩] })

/-- One iteration of the bulk loop in `worker_order_items`: deduct (with no
sufficiency check) and record the usage. -/
def bulkDeduct (oid : Nat) (today : String) (db : DB) (sid : Nat) (q : ℚ) : DB :=
  { db with
      stock := db.stock.map (fun r => if r.id = sid then deductRow r q today else r),
      order_items_used := db.order_items_used ++ [⟨oid, sid, q⟩] }

/-- The POST branch of `worker_order_items`: iterate over the snapshot of stock
ids, parse `qty_used_{sid}` from the form (`none` models a missing/empty field),
skip non-positive quantities, and otherwise deduct and record usage. -/
def worker_order_items_post (db : DB) (oid : Nat) (form : Nat → Option ℚ)
    (today : String) : DB :=
  (db.stock.map (fun r => r.id)).foldl
    (fun acc sid =>
      match form sid with
      | none => acc
      | some q => if q ≤ 0 then acc else bulkDeduct oid today acc sid q)
    db

/-- `delete_stock(stock_id)`: count the `order_items_used` rows referencing the
item; refuse (state unchanged) when the count is positive, else delete the row. -/
def delete_stock (db : DB) (stock_id : Nat) : DB :=
  let used_count := (db.order_items_used.filter (fun u => u.stock_item_id == stock_id)).length
  if used_count > 0 then db
  else { db with stock := db.stock.filter (fun r => !(r.id == stock_id)) }

/-- The `delete_order` action of `owner_orders`:
`DELETE FROM order_items_used WHERE order_id=?` then
`DELETE FROM orders WHERE id=?`. -/
def delete_order (db : DB) (oid : Nat) : DB :=
  { db with
      order_items_used := db.order_items_used.filter (fun u => !(u.order_id == oid)),
      orders := db.orders.filter (fun o => !(o.id == oid)) }

/-- The `update_status` action of `worker_orders`:
`rd = date.today().isoformat() if s == "Completed" else None`, then
`UPDATE orders SET status=?, receive_date=? WHERE id=?`. -/
def worker_update_status (db : DB) (oid : Nat) (status today : String) : DB :=
  let rd : Option String := if status = "Completed" then some today else none
  { db with orders := db.orders.map (fun o =>
      if o.id = oid then { o with status := status, receive_date := rd } else o) }

/-- The `update_status` action of `owner_orders` (same body as the worker path). -/
def owner_update_status (db : DB) (oid : Nat) (status today : String) : DB :=
  let rd : Option String := if status = "Completed" then some today else none
  { db with orders := db.orders.map (fun o =>
      if o.id = oid then { o with status := status, receive_date := rd } else o) }

/-- The POST branch of `owner_edit_order`: every field, `receive_date` included,
is written straight from the submitted form (`request.form.get("receive_date")
or None`), independent of the status value. -/
def owner_edit_order_post (db : DB) (oid : Nat) (product_name size colour : String)
    (quantity total_cost : ℚ) (status : String) (receive_date : Option String) : DB :=
  { db with orders := db.orders.map (fun o =>
      if o.id = oid then
        { o with product_name := product_name, size := size, colour := colour,
                 quantity := quantity, total_cost := total_cost,
                 status := status, receive_date := receive_date }
      else o) }

/-- A sequence of `upsert_stock` calls with a fixed item key. -/
def addSeq (db : DB) (item_name item_no size : String) (adds : List (ℚ × ℚ))
    (today : String) : DB :=
  adds.foldl (fun d p => upsert_stock d item_name item_no size p.1 p.2 today) db

/-- The denormalization invariant of the `stock` table. -/
def StockInv (db : DB) : Prop :=
  ∀ r ∈ db.stock, r.total_amount = r.quantity * r.unit_cost

instance (db : DB) : Decidable (StockInv db) :=
  inferInstanceAs (Decidable (∀ r ∈ db.stock, r.total_amount = r.quantity * r.unit_cost))

/-- An empty database. -/
def freshDB : DB :=
  { stock := [], stock_additions := [], order_items_used := [], orders := [],
    next_stock_id := 1 }

/-- A one-item database: 15 units of paper at unit cost 2. -/
def dbPaper : DB :=
  { stock := [{ id := 1, item_name := "paper", item_no := "P1", quantity := 15,
                unit_cost := 2, total_amount := 30, size := "",
                last_updated := "2026-01-01" }],
    stock_additions := [], order_items_used := [], orders := [],
    next_stock_id := 2 }

/-- A database with a single pending order and no stock. -/
def dbOrder : DB :=
  { stock := [], stock_additions := [], order_items_used := [],
    orders := [{ id := 1, product_name := "card", size := "", colour := "",
                 quantity := 1, total_cost := 10, status := "Pending",
                 receive_date := none }],
    next_stock_id := 1 }

/-- C1: the bulk per-order item-usage submission (`worker_order_items` POST)
deducts stock without any sufficiency check: submitting a usage of 20 against
an item holding 15 drives its quantity to −5, while `add_item_usage` refuses
the very same request with "Not enough stock". This exhibits the missing
guard on quantity nonnegativity. -/
theorem bulk_usage_drives_quantity_negative :
    (∃ r ∈ (worker_order_items_post dbPaper 7
        (fun sid => if sid = 1 then some 20 else none) "2026-01-02").stock,
      r.quantity < 0)
  ∧ (add_item_usage dbPaper 7 1 20 "2026-01-02").1 = some "Not enough stock" := by
  constructor
  · norm_num [worker_order_items_post, bulkDeduct, deductRow, dbPaper]
  · norm_num [add_item_usage, findStock, dbPaper, List.find?]

/-- C2 counterexample: replaying the spec's own example (add 10 units at total
cost 100, then 5 units at total cost 75 to a fresh item) yields
unit_cost = 35/3 ≈ 11.67 and total_amount = 175, not the claimed
unit_cost = 12.5 and total_amount = 187.5. -/
theorem addStock_example_numbers_refuted :
    ∃ r ∈ (addSeq freshDB "ink" "A1" "" [(10, 100), (5, 75)] "d").stock,
      r.quantity = 15 ∧ r.unit_cost = 35/3 ∧ r.unit_cost ≠ 25/2 ∧
      r.total_amount = 175 ∧ r.total_amount ≠ 375/2 := by
  have hs : pyStrip "A1" = "A1" := by decide
  have he : pyStrip "" = "" := by decide
  norm_num [addSeq, upsert_stock, lookupStock, applyAddition, newStockRow,
    additionLogRow, writeBack, hs, he, freshDB, List.find?]

/-- C5 counterexample: the `owner_edit_order` POST path changes an order's
status yet writes `receive_date` straight from the form: editing the order to
status "Pending" with a submitted receive date leaves a non-Completed order
with a non-null `receive_date`. -/
theorem owner_edit_order_ignores_status_for_receive_date :
    ∃ o ∈ (owner_edit_order_post dbOrder 1 "card" "" "" 1 10 "Pending"
        (some "2026-02-02")).orders,
      o.status ≠ "Completed" ∧ o.receive_date ≠ none := by
  refine ⟨{ id := 1, product_name := "card", size := "", colour := "",
            quantity := 1, total_cost := 10, status := "Pending",
            receive_date := some "2026-02-02" },
    by norm_num [owner_edit_order_post, dbOrder], by decide, by simp⟩

/-- C5 amended: the two status-update actions (`worker_orders` POST and
`owner_orders` POST) set the order's status to the submitted value and stamp
`receive_date` with today's date exactly when the new status is "Completed",
clearing it to null otherwise. (The `owner_edit_order` path instead writes
`receive_date` straight from the form, independent of the status.) -/
theorem update_status_stamps_receive_date (db : DB) (oid : Nat) (s today : String) :
    (∀ o ∈ (worker_update_status db oid s today).orders, o.id = oid →
        o.status = s ∧ o.receive_date = (if s = "Completed" then some today else none))
  ∧ (∀ o ∈ (owner_update_status db oid s today).orders, o.id = oid →
        o.status = s ∧ o.receive_date = (if s = "Completed" then some today else none)) := by
  constructor <;>
  · intro o ho hid
    simp only [worker_update_status, owner_update_status, List.mem_map] at ho
    obtain ⟨a, _, hfa⟩ := ho
    by_cases h : a.id = oid
    · rw [if_pos h] at hfa
      subst hfa
      exact ⟨rfl, rfl⟩
    · rw [if_neg h] at hfa
      subst hfa
      exact absurd hid h

/-- C8: `delete_stock` refuses and leaves the database unchanged whenever some
usage record references the item; with no referencing usage record it removes
every stock row with that id, keeps all other stock rows, and leaves the usage
log intact. -/
theorem deleteStockItem_guard (db : DB) (sid : Nat) :
    ((∃ u ∈ db.order_items_used, u.stock_item_id = sid) → delete_stock db sid = db)
  ∧ ((∀ u ∈ db.order_items_used, u.stock_item_id ≠ sid) →
        (∀ r ∈ (delete_stock db sid).stock, r.id ≠ sid)
      ∧ (∀ r ∈ db.stock, r.id ≠ sid → r ∈ (delete_stock db sid).stock)
      ∧ (delete_stock db sid).order_items_used = db.order_items_used
      ∧ (delete_stock db sid).stock_additions = db.stock_additions
      ∧ (delete_stock db sid).orders = db.orders) := by
  constructor
  · rintro ⟨u, hu, hid⟩
    have hcount : 0 < (db.order_items_used.filter
        (fun v => v.stock_item_id == sid)).length := by
      refine List.length_pos.mpr (fun hnil => ?_)
      have := List.filter_eq_nil_iff.mp hnil u hu
      simp [hid] at this
    simp [delete_stock, hcount]
  · intro hnone
    have hnil : db.order_items_used.filter (fun v => v.stock_item_id == sid) = [] := by
      refine List.filter_eq_nil_iff.mpr (fun u hu => ?_)
      simpa using hnone u hu
    have hres : delete_stock db sid
        = { db with stock := db.stock.filter (fun r => !(r.id == sid)) } := by
      simp [delete_stock, hnil]
    rw [hres]
    refine ⟨?_, ?_, rfl, rfl, rfl⟩
    · intro r hr
      simpa using (List.mem_filter.mp hr).2
    · intro r hr hid
      exact List.mem_filter.mpr ⟨hr, by simpa using hid⟩

/-- C9: the `delete_order` action removes exactly the usage records and the
order row carrying the deleted order id, and leaves the stock table (and the
addition log) entirely unchanged: no deducted quantity is restored and no
cost field is touched. -/
theorem deleteOrder_cascade_frame (db : DB) (oid : Nat) :
    ((delete_order db oid).stock = db.stock)
  ∧ ((delete_order db oid).stock_additions = db.stock_additions)
  ∧ (∀ u ∈ (delete_order db oid).order_items_used, u.order_id ≠ oid)
  ∧ (∀ u ∈ db.order_items_used, u.order_id ≠ oid →
        u ∈ (delete_order db oid).order_items_used)
  ∧ (∀ o ∈ (delete_order db oid).orders, o.id ≠ oid)
  ∧ (∀ o ∈ db.orders, o.id ≠ oid → o ∈ (delete_order db oid).orders) := by
  refine ⟨rfl, rfl, ?_, ?_, ?_, ?_⟩ <;>
    simp_all [delete_order, List.mem_filter]

/-- C3: full characterization of `add_item_usage`'s outcomes: InvalidQuantity
("Quantity must be > 0") exactly when the requested quantity is ≤ 0; NotFound
("Stock item not found") exactly when the quantity is positive and no stock row
has the id; InsufficientStock ("Not enough stock") exactly when the quantity is
positive, the row exists and holds strictly less than requested; and every
failure leaves the database completely unchanged (no partial deduction). -/
theorem consumeStock_error_cases (db : DB) (oid sid : Nat) (q : ℚ) (today : String) :
    ((add_item_usage db oid sid q today).1 = some "Quantity must be > 0" ↔ q ≤ 0)
  ∧ ((add_item_usage db oid sid q today).1 = some "Stock item not found" ↔
        0 < q ∧ findStock db sid = none)
  ∧ ((add_item_usage db oid sid q today).1 = some "Not enough stock" ↔
        0 < q ∧ ∃ s, findStock db sid = some s ∧ s.quantity < q)
  ∧ (∀ e, (add_item_usage db oid sid q today).1 = some e →
        (add_item_usage db oid sid q today).2 = db) := by
  by_cases h1 : q ≤ 0
  · have hr : add_item_usage db oid sid q today = (some "Quantity must be > 0", db) := by
      simp [add_item_usage, h1]
    rw [hr]
    exact ⟨iff_of_true rfl h1,
      iff_of_false (by simp) (by rintro ⟨hq, -⟩; exact absurd h1 (not_le.mpr hq)),
      iff_of_false (by simp) (by rintro ⟨hq, -⟩; exact absurd h1 (not_le.mpr hq)),
      fun e _ => rfl⟩
  · cases hfind : findStock db sid with
    | none =>
        have hr : add_item_usage db oid sid q today = (some "Stock item not found", db) := by
          simp [add_item_usage, h1, hfind]
        rw [hr]
        refine ⟨iff_of_false (by simp) h1,
          iff_of_true rfl ⟨not_le.mp h1, rfl⟩,
          iff_of_false (by simp) ?_, fun e _ => rfl⟩
        rintro ⟨-, s, hs, -⟩
        exact Option.noConfusion hs
    | some s =>
        by_cases h2 : s.quantity < q
        · have hr : add_item_usage db oid sid q today = (some "Not enough stock", db) := by
            simp [add_item_usage, h1, hfind, h2]
          rw [hr]
          refine ⟨iff_of_false (by simp) h1,
            iff_of_false (by simp) (by rintro ⟨-, hn⟩; exact Option.noConfusion hn),
            iff_of_true rfl ⟨not_le.mp h1, s, rfl, h2⟩, fun e _ => rfl⟩
        · have hr1 : (add_item_usage db oid sid q today).1 = none := by
            simp [add_item_usage, h1, hfind, h2]
          refine ⟨iff_of_false (by simp [hr1]) h1,
            iff_of_false (by simp [hr1])
              (by rintro ⟨-, hn⟩; simp [hfind] at hn),
            iff_of_false (by simp [hr1]) ?_, ?_⟩
          · rintro ⟨-, s', hs', hlt⟩
            rw [Option.some.injEq] at hs'
            subst hs'
            exact absurd hlt h2
          · intro e he
            rw [hr1] at he
            exact Option.noConfusion he

/-- Every row of `db.stock.map (fun r => if r.id = sid then deductRow r q t else r)`
satisfies the denormalization law when every row of `db.stock` does: the
deduction UPDATE recomputes `total_amount` as the new quantity times the
unchanged unit cost. -/
lemma stockInv_map_deduct (db : DB) (sid : Nat) (q : ℚ) (t : String)
    (hinv : StockInv db) :
    ∀ r' ∈ db.stock.map (fun r => if r.id = sid then deductRow r q t else r),
      r'.total_amount = r'.quantity * r'.unit_cost := by
  intro r' hr'
  rw [List.mem_map] at hr'
  obtain ⟨x, hx, hfx⟩ := hr'
  by_cases h : x.id = sid
  · rw [if_pos h] at hfx
    subst hfx
    rfl
  · rw [if_neg h] at hfx
    subst hfx
    exact hinv x hx

/-- `StockInv` is preserved by the fold of the bulk item-usage loop. -/
lemma stockInv_bulk_fold (oid : Nat) (t : String) (form : Nat → Option ℚ) :
    ∀ (l : List Nat) (d : DB), StockInv d →
      StockInv (l.foldl (fun acc sid =>
        match form sid with
        | none => acc
        | some q => if q ≤ 0 then acc else bulkDeduct oid t acc sid q) d) := by
  intro l
  induction l with
  | nil => intro d hd; simpa using hd
  | cons a l ih =>
      intro d hd
      rw [List.foldl_cons]
      apply ih
      cases hfa : form a with
      | none => simpa [hfa] using hd
      | some q =>
          by_cases hq : q ≤ 0
          · simpa [hfa, hq] using hd
          · simp only [hfa, hq, if_false]
            intro r' hr'
            simp only [bulkDeduct] at hr'
            exact stockInv_map_deduct d a q t hd r' hr'

/-- C4: every operation — `upsert_stock` on a new or existing item,
`add_item_usage` (successful or failed), and the bulk item-usage submission —
preserves the invariant `total_amount = quantity × unit_cost` across the
whole stock table. -/
theorem ops_preserve_total_invariant (db : DB)
    (nm no sz today : String) (aq ac : ℚ) (oid sid : Nat) (q : ℚ)
    (form : Nat → Option ℚ) (hinv : StockInv db) :
    StockInv (upsert_stock db nm no sz aq ac today)
  ∧ StockInv (add_item_usage db oid sid q today).2
  ∧ StockInv (worker_order_items_post db oid form today) := by
  refine ⟨?_, ?_, ?_⟩
  · intro r' hr'
    simp only [upsert_stock] at hr'
    cases hlk : lookupStock db nm (pyStrip no) (pyStrip sz) with
    | some row =>
        rw [hlk] at hr'
        simp only at hr'
        rw [List.mem_map] at hr'
        obtain ⟨x, hx, hfx⟩ := hr'
        by_cases h : x.id = row.id
        · rw [if_pos h] at hfx
          subst hfx
          simp [writeBack, applyAddition]
        · rw [if_neg h] at hfx
          subst hfx
          exact hinv x hx
    | none =>
        rw [hlk] at hr'
        simp only at hr'
        rcases List.mem_append.mp hr' with hold | hnew
        · exact hinv r' hold
        · rw [List.mem_singleton] at hnew
          subst hnew
          simp [newStockRow]
  · by_cases h1 : q ≤ 0
    · simpa [add_item_usage, h1] using hinv
    · cases hfind : findStock db sid with
      | none => simpa [add_item_usage, h1, hfind] using hinv
      | some s =>
          by_cases h2 : s.quantity < q
          · simpa [add_item_usage, h1, hfind, h2] using hinv
          · intro r' hr'
            simp only [add_item_usage, h1, hfind, h2, if_false, if_neg] at hr'
            exact stockInv_map_deduct db sid q today hinv r' hr'
  · simp only [worker_order_items_post]
    exact stockInv_bulk_fold oid today form (db.stock.map (fun r => r.id)) db hinv

/-- C4 witness: the invariant holds of the concrete one-item database and is
preserved by a concrete addition, a concrete successful deduction, and a
concrete bulk submission. -/
theorem ops_preserve_total_invariant_w :
    StockInv (upsert_stock dbPaper "paper" "P1" "" 1 4 "d")
  ∧ StockInv (add_item_usage dbPaper 7 1 5 "d").2
  ∧ StockInv (worker_order_items_post dbPaper 7 (fun _ => none) "d") :=
  ops_preserve_total_invariant dbPaper "paper" "P1" "" "d" 1 4 7 1 5 (fun _ => none)
    (by norm_num [StockInv, dbPaper])

/-- C6: a successful `add_item_usage` maps the targeted row to `deductRow`:
quantity drops by exactly the used amount, unit_cost is untouched,
total_amount is recomputed as the new quantity times the unchanged unit cost,
last_updated is stamped; every other stock row, the addition log and the
orders table are unchanged, and exactly one usage record is appended. -/
theorem consumeStock_success_effect (db : DB) (oid sid : Nat) (q : ℚ) (today : String)
    (h : (add_item_usage db oid sid q today).1 = none) :
    (∀ r ∈ db.stock, r.id = sid →
        deductRow r q today ∈ (add_item_usage db oid sid q today).2.stock
      ∧ (deductRow r q today).quantity = r.quantity - q
      ∧ (deductRow r q today).unit_cost = r.unit_cost
      ∧ (deductRow r q today).total_amount
          = (deductRow r q today).quantity * r.unit_cost
      ∧ (deductRow r q today).last_updated = today)
  ∧ (∀ r ∈ db.stock, r.id ≠ sid → r ∈ (add_item_usage db oid sid q today).2.stock)
  ∧ ((add_item_usage db oid sid q today).2.order_items_used
      = db.order_items_used ++ [⟨oid, sid, q⟩])
  ∧ ((add_item_usage db oid sid q today).2.orders = db.orders)
  ∧ ((add_item_usage db oid sid q today).2.stock_additions = db.stock_additions) := by
  by_cases h1 : q ≤ 0
  · simp [add_item_usage, h1] at h
  · cases hfind : findStock db sid with
    | none => simp [add_item_usage, h1, hfind] at h
    | some s =>
        by_cases h2 : s.quantity < q
        · simp [add_item_usage, h1, hfind, h2] at h
        · have hr : add_item_usage db oid sid q today
              = (none,
                 { db with
                     stock := db.stock.map (fun r =>
                       if r.id = sid then deductRow r q today else r),
                     order_items_used :=
                       db.order_items_used ++ [⟨oid, sid, q⟩] }) := by
            simp [add_item_usage, h1, hfind, h2]
          rw [hr]
          refine ⟨?_, ?_, rfl, rfl, rfl⟩
          · intro r hrm hid
            refine ⟨?_, rfl, rfl, rfl, rfl⟩
            exact List.mem_map.mpr ⟨r, hrm, by rw [if_pos hid]⟩
          · intro r hrm hid
            exact List.mem_map.mpr ⟨r, hrm, by rw [if_neg hid]⟩

/-- C6 witness: consuming 5 of the 15 units of the concrete item succeeds and
has exactly the stated effect. -/
theorem consumeStock_success_effect_w :
    (∀ r ∈ dbPaper.stock, r.id = 1 →
        deductRow r 5 "2026-01-03" ∈ (add_item_usage dbPaper 7 1 5 "2026-01-03").2.stock
      ∧ (deductRow r 5 "2026-01-03").quantity = r.quantity - 5
      ∧ (deductRow r 5 "2026-01-03").unit_cost = r.unit_cost
      ∧ (deductRow r 5 "2026-01-03").total_amount
          = (deductRow r 5 "2026-01-03").quantity * r.unit_cost
      ∧ (deductRow r 5 "2026-01-03").last_updated = "2026-01-03")
  ∧ (∀ r ∈ dbPaper.stock, r.id ≠ 1 →
        r ∈ (add_item_usage dbPaper 7 1 5 "2026-01-03").2.stock)
  ∧ ((add_item_usage dbPaper 7 1 5 "2026-01-03").2.order_items_used
      = dbPaper.order_items_used ++ [⟨7, 1, 5⟩])
  ∧ ((add_item_usage dbPaper 7 1 5 "2026-01-03").2.orders = dbPaper.orders)
  ∧ ((add_item_usage dbPaper 7 1 5 "2026-01-03").2.stock_additions
      = dbPaper.stock_additions) :=
  consumeStock_success_effect dbPaper 7 1 5 "2026-01-03"
    (by norm_num [add_item_usage, findStock, dbPaper, List.find?])

/-- C7: `upsert_stock` with zero added quantity takes the guarded else-branches
(no division by zero is ever evaluated): the freshly created item carries
quantity 0, unit_cost 0 and total_amount 0, and the `stock_additions` row
logged for the event records a per-event unit cost of 0. -/
theorem addStock_zero_qty_no_division (db : DB) (nm no sz : String) (c : ℚ)
    (today : String)
    (hfresh : lookupStock db nm (pyStrip no) (pyStrip sz) = none) :
    (newStockRow db.next_stock_id nm (pyStrip no) (pyStrip sz) 0 c today
        ∈ (upsert_stock db nm no sz 0 c today).stock)
  ∧ ((newStockRow db.next_stock_id nm (pyStrip no) (pyStrip sz) 0 c today).quantity = 0)
  ∧ ((newStockRow db.next_stock_id nm (pyStrip no) (pyStrip sz) 0 c today).unit_cost = 0)
  ∧ ((newStockRow db.next_stock_id nm (pyStrip no) (pyStrip sz) 0 c today).total_amount = 0)
  ∧ ((upsert_stock db nm no sz 0 c today).stock_additions
      = db.stock_additions ++ [additionLogRow nm (pyStrip no) 0 c today])
  ∧ ((additionLogRow nm (pyStrip no) 0 c today).unit_cost = 0) := by
  refine ⟨?_, rfl, by simp [newStockRow], by simp [newStockRow], ?_, by simp [additionLogRow]⟩
  · simp only [upsert_stock, hfresh]
    exact List.mem_append_right _ (List.mem_singleton.mpr rfl)
  · simp only [upsert_stock, hfresh]

/-- C7 witness: adding 0 units at total cost 50 of a brand-new item to the
empty database creates the item with unit_cost 0 and logs the addition with
unit cost 0. -/
theorem addStock_zero_qty_no_division_w :
    (newStockRow freshDB.next_stock_id "foil" (pyStrip "F1") (pyStrip "") 0 50 "d"
        ∈ (upsert_stock freshDB "foil" "F1" "" 0 50 "d").stock)
  ∧ ((newStockRow freshDB.next_stock_id "foil" (pyStrip "F1") (pyStrip "") 0 50 "d").quantity = 0)
  ∧ ((newStockRow freshDB.next_stock_id "foil" (pyStrip "F1") (pyStrip "") 0 50 "d").unit_cost = 0)
  ∧ ((newStockRow freshDB.next_stock_id "foil" (pyStrip "F1") (pyStrip "") 0 50 "d").total_amount = 0)
  ∧ ((upsert_stock freshDB "foil" "F1" "" 0 50 "d").stock_additions
      = freshDB.stock_additions ++ [additionLogRow "foil" (pyStrip "F1") 0 50 "d"])
  ∧ ((additionLogRow "foil" (pyStrip "F1") 0 50 "d").unit_cost = 0) :=
  addStock_zero_qty_no_division freshDB "foil" "F1" "" 50 "d"
    (by simp [lookupStock, freshDB])

/-- C10: `upsert_stock` validates no signs: whatever the added quantity or
total cost (negative included), when the lookup matches a row the operation
completes, writes back quantity = old quantity + added quantity (possibly
negative), and still appends a `stock_additions` record for the event. -/
theorem addStock_no_sign_validation (db : DB) (nm no sz : String) (aq ac : ℚ)
    (today : String) (row : StockRow)
    (hmatch : lookupStock db nm (pyStrip no) (pyStrip sz) = some row) :
    (writeBack (applyAddition row aq ac today) row
        ∈ (upsert_stock db nm no sz aq ac today).stock)
  ∧ ((writeBack (applyAddition row aq ac today) row).quantity = row.quantity + aq)
  ∧ ((upsert_stock db nm no sz aq ac today).stock_additions
      = db.stock_additions ++ [additionLogRow nm (pyStrip no) aq ac today]) := by
  have hrow : row ∈ db.stock := by
    unfold lookupStock at hmatch
    split at hmatch
    · exact List.mem_of_find?_eq_some hmatch
    · exact List.mem_of_find?_eq_some hmatch
  refine ⟨?_, rfl, ?_⟩
  · simp only [upsert_stock, hmatch]
    exact List.mem_map.mpr ⟨row, hrow, by rw [if_pos rfl]⟩
  · simp only [upsert_stock, hmatch]

/-- C10 witness: adding −10 units (total cost 0) to the item holding 5 units
completes, leaves the row at quantity −5, and still logs a stock addition. -/
theorem addStock_no_sign_validation_w :
    ((writeBack (applyAddition
          { id := 1, item_name := "paper", item_no := "P1", quantity := 15,
            unit_cost := 2, total_amount := 30, size := "",
            last_updated := "2026-01-01" } (-20) 0 "d")
          { id := 1, item_name := "paper", item_no := "P1", quantity := 15,
            unit_cost := 2, total_amount := 30, size := "",
            last_updated := "2026-01-01" })
        ∈ (upsert_stock dbPaper "paper" "P1" "" (-20) 0 "d").stock)
  ∧ ((writeBack (applyAddition
          { id := 1, item_name := "paper", item_no := "P1", quantity := 15,
            unit_cost := 2, total_amount := 30, size := "",
            last_updated := "2026-01-01" } (-20) 0 "d")
          { id := 1, item_name := "paper", item_no := "P1", quantity := 15,
            unit_cost := 2, total_amount := 30, size := "",
            last_updated := "2026-01-01" }).quantity = 15 + (-20))
  ∧ ((upsert_stock dbPaper "paper" "P1" "" (-20) 0 "d").stock_additions
      = dbPaper.stock_additions ++ [additionLogRow "paper" (pyStrip "P1") (-20) 0 "d"]) :=
  addStock_no_sign_validation dbPaper "paper" "P1" "" (-20) 0 "d"
    { id := 1, item_name := "paper", item_no := "P1", quantity := 15,
      unit_cost := 2, total_amount := 30, size := "",
      last_updated := "2026-01-01" }
    (by have h1 : pyStrip "P1" = "P1" := by decide
        have h2 : pyStrip "" = "" := by decide
        simp [lookupStock, dbPaper, h1, h2, List.find?])

/-- Writing the recomputed columns of `applyAddition r q c t` back into `r`
reproduces `applyAddition r q c t` itself. -/
lemma writeBack_applyAddition (r : StockRow) (q c : ℚ) (t : String) :
    writeBack (applyAddition r q c t) r = applyAddition r q c t := rfl

/-- `applyAddition` keeps the item number. -/
lemma applyAddition_item_no (r : StockRow) (q c : ℚ) (t : String) :
    (applyAddition r q c t).item_no = r.item_no := rfl

/-- `applyAddition` adds the added quantity. -/
lemma applyAddition_quantity (r : StockRow) (q c : ℚ) (t : String) :
    (applyAddition r q c t).quantity = r.quantity + q := rfl

/-- `applyAddition` keeps `total_amount = quantity × unit_cost`. -/
lemma applyAddition_total (r : StockRow) (q c : ℚ) (t : String) :
    (applyAddition r q c t).total_amount
      = (applyAddition r q c t).quantity * (applyAddition r q c t).unit_cost := rfl

/-- With a positive new quantity, `applyAddition` takes the division branch. -/
lemma applyAddition_unit_pos (r : StockRow) (q c : ℚ) (t : String)
    (h : 0 < r.quantity + q) :
    (applyAddition r q c t).unit_cost
      = (r.quantity * r.unit_cost + c) / (r.quantity + q) := by
  simp [applyAddition, h]

/-- With a positive new quantity, the row value `quantity × unit_cost` grows by
exactly the addition's total cost. -/
lemma applyAddition_value (r : StockRow) (q c : ℚ) (t : String)
    (h : 0 < r.quantity + q) :
    (applyAddition r q c t).quantity * (applyAddition r q c t).unit_cost
      = r.quantity * r.unit_cost + c := by
  rw [applyAddition_quantity, applyAddition_unit_pos r q c t h, mul_comm,
    div_mul_cancel₀ _ (ne_of_gt h)]

/-- On a one-row stock table whose row carries the (non-empty, stripped) item
number, `upsert_stock` finds the row and updates it in place. -/
lemma upsert_stock_singleton (db : DB) (nm no sz today : String) (r : StockRow)
    (hk : pyStrip no ≠ "") (hno : r.item_no = pyStrip no) (hs : db.stock = [r])
    (q c : ℚ) :
    (upsert_stock db nm no sz q c today).stock = [applyAddition r q c today] := by
  have hlk : lookupStock db nm (pyStrip no) (pyStrip sz) = some r := by
    unfold lookupStock
    rw [if_pos hk, hs]
    simp [List.find?, hno]
  simp only [upsert_stock, hlk]
  rw [hs]
  simp [writeBack_applyAddition]

/-- Folding positive additions over a one-row stock table keeps a single row,
accumulates the added quantities into `quantity`, the added costs into the
value `quantity × unit_cost`, and preserves the denormalization law. -/
lemma addSeq_singleton_law (nm no sz today : String) (hk : pyStrip no ≠ "") :
    ∀ (adds : List (ℚ × ℚ)) (db : DB) (r : StockRow),
      (∀ p ∈ adds, 0 < p.1) →
      db.stock = [r] → r.item_no = pyStrip no → 0 < r.quantity →
      r.total_amount = r.quantity * r.unit_cost →
      ∃ r', (addSeq db nm no sz adds today).stock = [r']
        ∧ r'.item_no = pyStrip no
        ∧ r'.quantity = r.quantity + (adds.map Prod.fst).sum
        ∧ r'.quantity * r'.unit_cost
            = r.quantity * r.unit_cost + (adds.map Prod.snd).sum
        ∧ r'.total_amount = r'.quantity * r'.unit_cost := by
  intro adds
  induction adds with
  | nil =>
      intro db r hpos hs hno hq ht
      exact ⟨r, by simpa [addSeq] using hs, hno, by simp, by simp, ht⟩
  | cons p rest ih =>
      intro db r hpos hs hno hq ht
      obtain ⟨q, c⟩ := p
      have hqpos : 0 < q := by simpa using hpos (q, c) (List.mem_cons_self _ _)
      have hnewpos : 0 < r.quantity + q := add_pos hq hqpos
      have hstep := upsert_stock_singleton db nm no sz today r hk hno hs q c
      have hcons : addSeq db nm no sz ((q, c) :: rest) today
          = addSeq (upsert_stock db nm no sz q c today) nm no sz rest today := by
        simp [addSeq]
      obtain ⟨r', h1, h2, h3, h4, h5⟩ :=
        ih (upsert_stock db nm no sz q c today) (applyAddition r q c today)
          (fun p hp => hpos p (List.mem_cons_of_mem _ hp)) hstep
          (by rw [applyAddition_item_no, hno])
          (by rw [applyAddition_quantity]; exact hnewpos)
          (applyAddition_total r q c today)
      refine ⟨r', by rw [hcons]; exact h1, h2, ?_, ?_, h5⟩
      · rw [h3, applyAddition_quantity]
        simp only [List.map_cons, List.sum_cons]
        ring
      · rw [h4, applyAddition_value r q c today hnewpos]
        simp only [List.map_cons, List.sum_cons]
        ring

/-- C2 amended: for every nonempty sequence of `upsert_stock` calls with
positive added quantities applied to a fresh item (empty stock table,
non-empty stripped item number), the final quantity is the sum of the added
quantities, the final unit cost is the sum of the addition total costs
divided by the sum of the added quantities, and `total_amount` is their
product. (With the spec's example inputs this gives quantity 15,
unit_cost 175/15 = 35/3 and total_amount 175 — not 12.5 and 187.5.) -/
theorem addStock_weighted_average_law (db : DB) (nm no sz today : String)
    (q₀ c₀ : ℚ) (adds : List (ℚ × ℚ))
    (hfresh : db.stock = []) (hk : pyStrip no ≠ "")
    (h0 : 0 < q₀) (hpos : ∀ p ∈ adds, 0 < p.1) :
    ∃ r, (addSeq db nm no sz ((q₀, c₀) :: adds) today).stock = [r]
      ∧ r.quantity = (((q₀, c₀) :: adds).map Prod.fst).sum
      ∧ r.unit_cost = (((q₀, c₀) :: adds).map Prod.snd).sum
          / (((q₀, c₀) :: adds).map Prod.fst).sum
      ∧ r.total_amount = r.quantity * r.unit_cost := by
  have hlk : lookupStock db nm (pyStrip no) (pyStrip sz) = none := by
    unfold lookupStock
    simp [hfresh]
  have hstep : (upsert_stock db nm no sz q₀ c₀ today).stock
      = [newStockRow db.next_stock_id nm (pyStrip no) (pyStrip sz) q₀ c₀ today] := by
    simp [upsert_stock, hlk, hfresh]
  have hnq : (newStockRow db.next_stock_id nm (pyStrip no) (pyStrip sz) q₀ c₀ today).quantity
      = q₀ := rfl
  have hnno : (newStockRow db.next_stock_id nm (pyStrip no) (pyStrip sz) q₀ c₀ today).item_no
      = pyStrip no := rfl
  have hnu : (newStockRow db.next_stock_id nm (pyStrip no) (pyStrip sz) q₀ c₀ today).unit_cost
      = c₀ / q₀ := by
    simp [newStockRow, h0]
  have hnt : (newStockRow db.next_stock_id nm (pyStrip no) (pyStrip sz) q₀ c₀ today).total_amount
      = (newStockRow db.next_stock_id nm (pyStrip no) (pyStrip sz) q₀ c₀ today).quantity
        * (newStockRow db.next_stock_id nm (pyStrip no) (pyStrip sz) q₀ c₀ today).unit_cost := rfl
  have hnval : (newStockRow db.next_stock_id nm (pyStrip no) (pyStrip sz) q₀ c₀ today).quantity
      * (newStockRow db.next_stock_id nm (pyStrip no) (pyStrip sz) q₀ c₀ today).unit_cost
      = c₀ := by
    rw [hnq, hnu, mul_comm, div_mul_cancel₀ _ (ne_of_gt h0)]
  have hcons : addSeq db nm no sz ((q₀, c₀) :: adds) today
      = addSeq (upsert_stock db nm no sz q₀ c₀ today) nm no sz adds today := by
    simp [addSeq]
  obtain ⟨r', h1, _, h3, h4, h5⟩ :=
    addSeq_singleton_law nm no sz today hk adds
      (upsert_stock db nm no sz q₀ c₀ today)
      (newStockRow db.next_stock_id nm (pyStrip no) (pyStrip sz) q₀ c₀ today)
      hpos hstep hnno (by rw [hnq]; exact h0) hnt
  rw [hnval] at h4
  rw [hnq] at h3
  have hsum_nonneg : 0 ≤ (adds.map Prod.fst).sum := by
    refine List.sum_nonneg (fun x hx => ?_)
    obtain ⟨p, hp, rfl⟩ := List.mem_map.mp hx
    exact le_of_lt (hpos p hp)
  have hqr : r'.quantity = (((q₀, c₀) :: adds).map Prod.fst).sum := by
    rw [h3]
    simp
  have hne : r'.quantity ≠ 0 := by
    rw [h3]
    exact ne_of_gt (add_pos_of_pos_of_nonneg h0 hsum_nonneg)
  refine ⟨r', by rw [hcons]; exact h1, hqr, ?_, h5⟩
  rw [← hqr, ← show r'.quantity * r'.unit_cost
      = (((q₀, c₀) :: adds).map Prod.snd).sum from by rw [h4]; simp]
  exact (mul_div_cancel_left₀ _ hne).symm

/-- C2 witness: the law at the spec's example inputs — add 10 units at total
cost 100, then 5 units at total cost 75, to a fresh item. -/
theorem addStock_weighted_average_law_w :
    ∃ r, (addSeq freshDB "ink" "A1" "" [((10 : ℚ), (100 : ℚ)), ((5 : ℚ), (75 : ℚ))] "d").stock = [r]
      ∧ r.quantity = (([((10 : ℚ), (100 : ℚ)), ((5 : ℚ), (75 : ℚ))]).map Prod.fst).sum
      ∧ r.unit_cost = (([((10 : ℚ), (100 : ℚ)), ((5 : ℚ), (75 : ℚ))]).map Prod.snd).sum
          / (([((10 : ℚ), (100 : ℚ)), ((5 : ℚ), (75 : ℚ))]).map Prod.fst).sum
      ∧ r.total_amount = r.quantity * r.unit_cost :=
  addStock_weighted_average_law freshDB "ink" "A1" "" "d" 10 100 [(5, 75)]
    rfl (by decide) (by norm_num) (by norm_num)

end PrintingPress
